import Mathlib

/-!
Shallow embedding of the `luactl` repository's variable-synchronization
engine (package `sync`, files `processor.go` in its two historical
variants, plus the `ProcessModules` orchestrator) and proofs of the
frozen claims about it.

Conventions:
* Go strings are Lean `String`s; Go byte slices of HCL token text are
  `String` (for the current-mode synthesizer) or `List String` (one
  entry per `hclwrite.Token`'s bytes, for the legacy token-building
  rewrite engine).
* Functions from Go's `strings` package are modelled one-to-one
  (`goTrimSpace`, `goTrim` with the quote cut-set, `goRemoveQuotes`
  for `ReplaceAll(s, "\"", "")`, `goHasPre` for `HasPrefix`,
  `goContainsSub` for `Contains`).
* A Go runtime panic (nil-pointer dereference, index out of range) is
  modelled as `Option.none` of the enclosing operation.
-/

namespace Luactl

/-- The double-quote character, written via its code point. -/
def quoteCh : Char := Char.ofNat 34

/-- Whitespace predicate of Go's `unicode.IsSpace` restricted to the
code points it recognizes in `strings.TrimSpace` for the Latin-1 range:
space, tab, newline, vertical tab, form feed, carriage return, NEL and
NBSP. -/
def goIsSpace (c : Char) : Bool :=
  c = ' ' || c = Char.ofNat 9 || c = Char.ofNat 10 || c = Char.ofNat 11 ||
  c = Char.ofNat 12 || c = Char.ofNat 13 || c = Char.ofNat 0x85 || c = Char.ofNat 0xA0

/-- Drop the longest suffix of `l` all of whose characters satisfy `p`. -/
def dropTrailing (p : Char → Bool) (l : List Char) : List Char :=
  (l.reverse.dropWhile p).reverse

/-- Go `strings.TrimSpace`: strip leading and trailing whitespace. -/
def goTrimSpace (s : String) : String :=
  ⟨dropTrailing goIsSpace (s.data.dropWhile goIsSpace)⟩

/-- Go `strings.Trim(s, "\"")`: strip all leading and trailing
double-quote characters. -/
def goTrimQuotes (s : String) : String :=
  ⟨dropTrailing (fun c => c = quoteCh) (s.data.dropWhile (fun c => c = quoteCh))⟩

/-- Go `strings.ReplaceAll(s, "\"", "")`: delete every double-quote
character. -/
def goRemoveQuotes (s : String) : String :=
  ⟨s.data.filter (fun c => c ≠ quoteCh)⟩

/-- Go `strings.HasPrefix(s, pre)`. -/
def goHasPre (pre s : String) : Bool :=
  pre.data.isPrefixOf s.data

/-- Containment of `sub` as a contiguous run inside `l`. -/
def listInfix (sub : List Char) : List Char → Bool
  | [] => sub.isEmpty
  | c :: rest => sub.isPrefixOf (c :: rest) || listInfix sub rest

/-- Go `strings.Contains(s, sub)`: substring containment. -/
def goContainsSub (s sub : String) : Bool :=
  listInfix sub.data s.data

/-- Escaping applied by `hclwrite.TokensForValue` to a `cty.StringVal`
when rendering it as a quoted HCL string literal: backslash-escape the
double-quote and backslash characters. (Template-introducer escaping is
not exercised by any value in this development.) -/
def hclEscape (s : String) : String :=
  ⟨s.data.foldr
    (fun c acc =>
      if c = quoteCh then '\\' :: quoteCh :: acc
      else if c = '\\' then '\\' :: '\\' :: acc
      else c :: acc) []⟩

/-!  Data model of the current-mode synthesizer (`syncAddonVariables`
in the generate-root-only variant).  An attribute expression is either
the raw token text obtained from parsing (`raw`), the rendering of
`hclwrite.TokensForValue (cty.StringVal v)` (`strLit`), or the
rendering of `hclwrite.TokensForValue (cty.NullVal cty.String)`
(`nullLit`). -/

/-- An HCL attribute expression, as stored by `hclwrite`. -/
inductive Expr where
  | raw (s : String)
  | strLit (v : String)
  | nullLit
deriving DecidableEq, Repr

/-- The byte text of an expression, `attr.Expr().BuildTokens(nil).Bytes()`. -/
def Expr.text : Expr → String
  | .raw s => s
  | .strLit v => "\"" ++ hclEscape v ++ "\""
  | .nullLit => "null"

/-- A named HCL block: block-type keyword, labels, and the body's
attributes in order. Attribute names inside one parsed body are unique,
so an association list models `Body.GetAttribute` faithfully. -/
structure HBlock where
  btype : String
  labels : List String
  attrs : List (String × Expr)
deriving DecidableEq, Repr

/-- First-match association-list lookup, the semantics of
`Body.GetAttribute` (returns `none` for Go's nil pointer). -/
def lookupAttr {α : Type} : List (String × α) → String → Option α
  | [], _ => none
  | p :: rest, n => if p.1 = n then some p.2 else lookupAttr rest n

/-- Attribute lookup on a block's body. -/
def HBlock.getAttribute (b : HBlock) (n : String) : Option Expr :=
  lookupAttr b.attrs n

/-- One iteration of the loop body of the current-mode
`syncAddonVariables` (part_004 lines 171-213) over a single extracted
variable block.  Outer `none` models a Go runtime panic: `labels[0]`
with no labels, or the unchecked `GetAttribute("type").Expr()`
dereference when the block has no `type` attribute.  `some none` means
the block was skipped (the fixed `"enabled"` exclusion); `some (some v)`
is the synthesized block appended to the output file.  The three
`SetAttributeRaw` calls on the fresh block body append in call order,
giving the literal attribute list below. -/
def syncVariableBlock (block : HBlock) : Option (Option HBlock) :=
  match block.labels.head? with
  | none => none
  | some name =>
    if name = "enabled" then some none
    else
      match block.getAttribute "type" with
      | none => none
      | some typeExpr =>
        match block.getAttribute "description" with
        | none =>
          some (some ⟨"variable", block.labels,
            [("type", typeExpr), ("default", Expr.nullLit)]⟩)
        | some descriptionAtrribute =>
          let dv := goRemoveQuotes (goTrimQuotes (goTrimSpace descriptionAtrribute.text))
          let descriptionValue :=
            match block.getAttribute "default" with
            | none => dv
            | some defaultAttribute =>
              let defaultValue := goTrimSpace defaultAttribute.text
              let typeAttribute := goTrimQuotes (goTrimSpace typeExpr.text)
              let defaultValue2 :=
                if typeAttribute = "string" then goTrimQuotes defaultValue else defaultValue
              let defaultValue3 :=
                if defaultValue2 = "" then "\"\"" else defaultValue2
              dv ++ " Defaults to `" ++ defaultValue3 ++ "`."
          some (some ⟨"variable", block.labels,
            [("type", typeExpr), ("default", Expr.nullLit),
             ("description", Expr.strLit descriptionValue)]⟩)

/-- The block loop of the current-mode `syncAddonVariables`: process the
extracted variable blocks in order, skipping `"enabled"`, collecting the
synthesized blocks of the fresh output file.  `none` models a panic in
any iteration. -/
def syncAddonVariables : List HBlock → Option (List HBlock)
  | [] => some []
  | b :: rest =>
    match syncVariableBlock b with
    | none => none
    | some none => syncAddonVariables rest
    | some (some nb) =>
      match syncAddonVariables rest with
      | none => none
      | some out => some (nb :: out)

/-!  Data model of the legacy rewrite engine (`syncAddonDefaults`,
part_003 lines 168-263).  There, expressions are handled at the token
level: `hclwrite.Tokens` is modelled as `List String`, one entry per
token's bytes, and `BuildTokens(nil).Bytes()` is `String.join`. -/

/-- A block of the legacy model (variable-definition blocks feeding the
DefaultTable, and the consumer document's blocks), with attribute
expressions as token lists. -/
structure CBlock where
  btype : String
  labels : List String
  attrs : List (String × List String)
deriving DecidableEq, Repr

/-- Go map read `m[k]` for `map[string]hclwrite.Tokens`: a missing key
yields the zero value, the nil (empty) token slice. -/
def goMapGet : List (String × List String) → String → List String
  | [], _ => []
  | p :: rest, n => if p.1 = n then p.2 else goMapGet rest n

/-- Go map write `m[k] = v`: overwrite the existing entry or add one. -/
def mapPut : List (String × List String) → String → List String →
    List (String × List String)
  | [], k, v => [(k, v)]
  | p :: rest, k, v => if p.1 = k then (k, v) :: rest else p :: mapPut rest k v

/-- The DefaultTable entry computed for one variable block (part_003
lines 188-193): the declared default's tokens, or the rendering of
`TokensForValue (cty.NullVal cty.String)` — the single token `null` —
when the block has no `default` attribute. -/
def entryOf (b : CBlock) : List String :=
  match lookupAttr b.attrs "default" with
  | some toks => toks
  | none => ["null"]

/-- The DefaultTable construction loop (part_003 lines 184-194).
`block.Labels()[0]` panics on a label-less block (`none`); the blocks
reaching this loop come from `extractVariables`, which filters those
out. -/
def buildDefaults : List CBlock → List (String × List String) →
    Option (List (String × List String))
  | [], acc => some acc
  | b :: rest, acc =>
    match b.labels.head? with
    | none => none
    | some name => buildDefaults rest (mapPut acc name (entryOf b))

/-- The token sequence built for a rewritten attribute (part_003 lines
205-248), in the order the Go code appends tokens:
`var` `.` name `!=` `null` `?` `var` `.` name `:` followed by
`TokensForFunctionCall "lookup"` applied to the single token-list
argument `local` `.` `addon` `,` "name" `,` dflt. -/
def ternaryTokens (name : String) (dflt : List String) : List String :=
  ["var", ".", name, "!=", "null", "?", "var", ".", name, ":"] ++
  ["lookup", "("] ++
  (["local", ".", "addon", ",", "\"", hclEscape name, "\"", ","] ++ dflt) ++
  [")"]

/-- The marker-substring heuristic (part_003 line 204). -/
def hasMarker (s : String) : Bool :=
  goContainsSub s "try" || goContainsSub s "lookup"

/-- Processing of one named attribute of a `module` block (part_003
lines 201-251): if the raw expression text contains a marker substring,
the whole expression is replaced by the synthesized ternary whose
lookup default is the Go-map read of the DefaultTable (nil tokens when
the name is absent); otherwise the attribute is not touched. -/
def rewriteAttr (defaults : List (String × List String)) (name : String)
    (toks : List String) : List String :=
  if hasMarker (String.join toks) then ternaryTokens name (goMapGet defaults name)
  else toks

/-- The consumer-document pass of `syncAddonDefaults` (part_003 lines
196-253): every block of type `module` has each of its attributes run
through `rewriteAttr`; other blocks are untouched. -/
def syncAddonDefaultsDoc (defaults : List (String × List String))
    (doc : List CBlock) : List CBlock :=
  doc.map fun b =>
    if b.btype = "module" then
      { b with attrs := b.attrs.map (fun p => (p.1, rewriteAttr defaults p.1 p.2)) }
    else b

/-- The two phases of `syncAddonDefaults` combined: build the
DefaultTable from the extracted variable blocks, then rewrite the
consumer document. -/
def syncAddonDefaults (varBlocks : List CBlock) (doc : List CBlock) :
    Option (List CBlock) :=
  (buildDefaults varBlocks []).map (fun defaults => syncAddonDefaultsDoc defaults doc)

/-!  Model of the batch orchestrator `ProcessModules` (part_004 lines
60-118; part_003 lines 54-112 is the same logic).  The directory
listing, the cancellation context and the per-module pipeline are the
external collaborators: `ReadDirResult` is the outcome of `os.ReadDir`,
`ctxDone i` tells whether the context's Done channel is closed at the
check made before entry `i`, and `process name` tells whether
processing module `name` succeeds.  The counters (and, observationally,
the list of module names on which the per-module pipeline was invoked)
are returned alongside the Go function's error result. -/

/-- One directory entry, as seen through `os.DirEntry`. -/
structure DirEntry where
  name : String
  isDir : Bool
deriving DecidableEq, Repr

/-- Outcome of `os.ReadDir` on the modules base directory:
a listing, an `fs.ErrNotExist`, or any other error. -/
inductive ReadDirResult where
  | ok (entries : List DirEntry)
  | notExist
  | failed
deriving DecidableEq, Repr

/-- The errors `ProcessModules` can return. -/
inductive PMError where
  | ctxCancelled
  | readDirFailed
  | aggregate (n : Nat)
deriving DecidableEq, Repr

/-- The orchestrator's counters plus the trace of per-module pipeline
invocations (the arguments of the `processModule` calls). -/
structure PMState where
  processed : Nat
  skipped : Nat
  errors : Nat
  invoked : List String
deriving DecidableEq, Repr

/-- Return value of the modelled `ProcessModules`: the Go error result
and the observable counter state at return. -/
structure PMReturn where
  err : Option PMError
  state : PMState
deriving DecidableEq, Repr

/-- Counters before the loop. -/
def initState : PMState := ⟨0, 0, 0, []⟩

/-- The entry loop of `ProcessModules` (part_004 lines 79-106):
check cancellation, skip non-directories without counting, count as
skipped a directory whose name lacks the `addon` name-prefix or
contains a dot, and otherwise invoke the per-module pipeline, counting
its success or failure. -/
def processLoop (ctxDone : Nat → Bool) (process : String → Bool) :
    List DirEntry → Nat → PMState → PMState × Option PMError
  | [], _, st => (st, none)
  | e :: rest, i, st =>
    if ctxDone i then (st, some .ctxCancelled)
    else if !e.isDir then processLoop ctxDone process rest (i + 1) st
    else if !(goHasPre "addon" e.name) || goContainsSub e.name "." then
      processLoop ctxDone process rest (i + 1) { st with skipped := st.skipped + 1 }
    else if process e.name then
      processLoop ctxDone process rest (i + 1)
        { st with processed := st.processed + 1, invoked := st.invoked ++ [e.name] }
    else
      processLoop ctxDone process rest (i + 1)
        { st with errors := st.errors + 1, invoked := st.invoked ++ [e.name] }

/-- The batch entry point `ProcessModules` (part_004 lines 60-118):
a missing modules directory returns success untouched; any other
listing failure is returned; otherwise run the loop and, when it was
not cancelled, return the aggregate error exactly when the error
counter is positive. -/
def ProcessModules (ctxDone : Nat → Bool) (dir : ReadDirResult)
    (process : String → Bool) : PMReturn :=
  match dir with
  | .notExist => ⟨none, initState⟩
  | .failed => ⟨some .readDirFailed, initState⟩
  | .ok entries =>
    match processLoop ctxDone process entries 0 initState with
    | (st, some e) => ⟨some e, st⟩
    | (st, none) =>
      if st.errors > 0 then ⟨some (.aggregate st.errors), st⟩ else ⟨none, st⟩

/-- A directory entry counted as skipped: a directory whose name fails
the addon-name filter. -/
def dirSkip (e : DirEntry) : Bool :=
  e.isDir && (!(goHasPre "addon" e.name) || goContainsSub e.name ".")

/-- A directory entry on which the per-module pipeline runs: a
directory whose name has the `addon` name-prefix and no dot. -/
def dirElig (e : DirEntry) : Bool :=
  e.isDir && goHasPre "addon" e.name && !(goContainsSub e.name ".")

/-- The display string that claim C1 prescribes for a default value,
transcribed from the claim's words for refinement comparison: strip
surrounding whitespace, and when the declared type is exactly `string`
additionally strip the surrounding quotes.  (The declared type is read
the way the code reads it: its token text with surrounding whitespace
and quotes stripped.) -/
def claimedDisplay (typeText defText : String) : String :=
  if goTrimQuotes (goTrimSpace typeText) = "string" then
    goTrimQuotes (goTrimSpace defText)
  else goTrimSpace defText

/-- The display string the code actually uses: `claimedDisplay` with
the empty result replaced by the explicit two-character token `""`. -/
def displayWithSentinel (typeText defText : String) : String :=
  if claimedDisplay typeText defText = "" then "\"\""
  else claimedDisplay typeText defText

example : goTrimSpace "  a b\t" = "a b" := by decide
example : goTrimQuotes "\"\"" = "" := by decide
example : goTrimQuotes "\"foo\"" = "foo" := by decide
example : goRemoveQuotes "\"desc\"" = "desc" := by decide
example :
    syncVariableBlock
      ⟨"variable", ["size"],
        [("type", Expr.raw "string"), ("default", Expr.raw "\"10\""),
         ("description", Expr.raw "\"Size of thing\"")]⟩ =
    some (some ⟨"variable", ["size"],
      [("type", Expr.raw "string"), ("default", Expr.nullLit),
       ("description", Expr.strLit "Size of thing Defaults to `10`.")]⟩) := by decide
example :
    ProcessModules (fun _ => false)
      (.ok [⟨"addon-a", true⟩, ⟨"addon.x", true⟩, ⟨"readme", false⟩, ⟨"other", true⟩])
      (fun _ => true) =
    ⟨none, ⟨1, 2, 0, ["addon-a"]⟩⟩ := by decide

/-- Every block emitted by one iteration of the current-mode
synthesizer loop carries a first label different from `"enabled"` and a
`default` attribute set to the null literal. -/
theorem syncVariableBlock_emit {b nb : HBlock}
    (h : syncVariableBlock b = some (some nb)) :
    nb.labels.head? ≠ some "enabled" ∧
    nb.getAttribute "default" = some Expr.nullLit := by
  unfold syncVariableBlock at h
  cases hh : b.labels.head? with
  | none => rw [hh] at h; exact absurd h (by simp)
  | some name =>
    rw [hh] at h
    simp only at h
    by_cases he : name = "enabled"
    · rw [if_pos he] at h; exact absurd h (by simp)
    · rw [if_neg he] at h
      cases ht : b.getAttribute "type" with
      | none => rw [ht] at h; exact absurd h (by simp)
      | some tE =>
        rw [ht] at h
        simp only at h
        cases hd : b.getAttribute "description" with
        | none =>
          rw [hd] at h
          simp only at h
          have hnb : nb = ⟨"variable", b.labels,
              [("type", tE), ("default", Expr.nullLit)]⟩ := by
            injection h with h1; injection h1 with h2; exact h2.symm
          subst hnb
          refine ⟨?_, ?_⟩
          · rw [hh]; intro hc; exact he (by injection hc)
          · simp [HBlock.getAttribute, lookupAttr]
        | some cE =>
          rw [hd] at h
          simp only at h
          have hnb : nb = ⟨"variable", b.labels,
              [("type", tE), ("default", Expr.nullLit),
               ("description", Expr.strLit
                 (match b.getAttribute "default" with
                  | none =>
                    goRemoveQuotes (goTrimQuotes (goTrimSpace cE.text))
                  | some defaultAttribute =>
                    goRemoveQuotes (goTrimQuotes (goTrimSpace cE.text)) ++
                      " Defaults to `" ++
                      (if (if goTrimQuotes (goTrimSpace tE.text) = "string" then
                            goTrimQuotes (goTrimSpace defaultAttribute.text)
                          else goTrimSpace defaultAttribute.text) = "" then "\"\""
                       else
                        (if goTrimQuotes (goTrimSpace tE.text) = "string" then
                          goTrimQuotes (goTrimSpace defaultAttribute.text)
                        else goTrimSpace defaultAttribute.text)) ++ "`."))]⟩ := by
            injection h with h1; injection h1 with h2; exact h2.symm
          subst hnb
          refine ⟨?_, ?_⟩
          · rw [hh]; intro hc; exact he (by injection hc)
          · simp [HBlock.getAttribute, lookupAttr]

/-- Running the entry loop with a context that never fires adds to the
incoming counters exactly the per-predicate counts over the remaining
entries, and never aborts. -/
theorem processLoop_no_cancel (process : String → Bool) :
    ∀ (entries : List DirEntry) (i : Nat) (st : PMState),
      processLoop (fun _ => false) process entries i st =
        (⟨st.processed + entries.countP (fun e => dirElig e && process e.name),
          st.skipped + entries.countP dirSkip,
          st.errors + entries.countP (fun e => dirElig e && !(process e.name)),
          st.invoked ++ (entries.filter dirElig).map DirEntry.name⟩,
         none) := by
  intro entries
  induction entries with
  | nil => intro i st; simp [processLoop]
  | cons e rest ih =>
    intro i st
    rw [processLoop]
    cases hd : e.isDir with
    | false =>
      have h1 : dirElig e = false := by simp [dirElig, hd]
      have h2 : dirSkip e = false := by simp [dirSkip, hd]
      simp [hd, ih, List.countP_cons, h1, h2]
    | true =>
      cases hf : (!(goHasPre "addon" e.name) || goContainsSub e.name ".") with
      | true =>
        have h1 : dirElig e = false := by
          simp only [Bool.or_eq_true, Bool.not_eq_true'] at hf
          rcases hf with hf | hf <;> simp [dirElig, hf]
        have h2 : dirSkip e = true := by simp [dirSkip, hd, hf]
        simp [hd, hf, ih, List.countP_cons, h1, h2]
        omega
      | false =>
        have h1 : dirElig e = true := by
          simp only [Bool.or_eq_false_iff, Bool.not_eq_false'] at hf
          simp [dirElig, hd, hf.1, hf.2]
        cases hp : process e.name with
        | true =>
          have h2 : dirSkip e = false := by simp [dirSkip, hf]
          simp [hd, hf, hp, ih, List.countP_cons, h1, h2]
          omega
        | false =>
          have h2 : dirSkip e = false := by simp [dirSkip, hf]
          simp [hd, hf, hp, ih, List.countP_cons, h1, h2]
          omega

/-- C6: invoking `ProcessModules` against a modules base directory that
does not exist returns success (no error) with zero modules processed,
skipped or errored, and without the per-module pipeline ever being
invoked. -/
theorem claim6_missing_dir_success (ctxDone : Nat → Bool) (process : String → Bool) :
    ProcessModules ctxDone .notExist process = ⟨none, ⟨0, 0, 0, []⟩⟩ := rfl

/-- C7 counterexample: the claim says an already-expired context always
makes `ProcessModules` return the cancellation error, but when the
directory listing succeeds with an empty entry list the loop body never
runs and the call returns success (`none`), not the cancellation
error. -/
theorem claim7_cex :
    ProcessModules (fun _ => true) (.ok []) (fun _ => true) = ⟨none, ⟨0, 0, 0, []⟩⟩ ∧
    (ProcessModules (fun _ => true) (.ok []) (fun _ => true)).err ≠
      some PMError.ctxCancelled := by
  refine ⟨rfl, ?_⟩
  intro hc
  simp [ProcessModules, processLoop, initState] at hc

/-- C7 (amended): if the context is already expired before the loop
starts and the directory listing succeeds with at least one entry, then
no module is processed (all counters zero, no pipeline invocation) and
the cancellation error is returned to the caller. -/
theorem claim7_cancellation (ctxDone : Nat → Bool) (entries : List DirEntry)
    (process : String → Bool) (h0 : ctxDone 0 = true) (hne : entries ≠ []) :
    ProcessModules ctxDone (.ok entries) process =
      ⟨some PMError.ctxCancelled, ⟨0, 0, 0, []⟩⟩ := by
  cases entries with
  | nil => exact absurd rfl hne
  | cons e rest => simp [ProcessModules, processLoop, h0, initState]

/-- C7 witness: the amended statement at a one-entry listing under an
expired context. -/
theorem claim7_witness :
    ProcessModules (fun _ => true) (.ok [⟨"addon-a", true⟩]) (fun _ => true) =
      ⟨some PMError.ctxCancelled, ⟨0, 0, 0, []⟩⟩ :=
  claim7_cancellation (fun _ => true) [⟨"addon-a", true⟩] (fun _ => true) rfl (by decide)

/-- C8: in a run without cancellation, a failing module only increments
the error counter — every sibling entry is still examined, so the
counters are exactly the per-predicate counts over the whole listing —
and the call returns the single aggregate error carrying the error
count exactly when at least one per-module error occurred, success
otherwise. -/
theorem claim8_aggregate_errors (entries : List DirEntry) (process : String → Bool) :
    ProcessModules (fun _ => false) (.ok entries) process =
      (if 0 < entries.countP (fun e => dirElig e && !(process e.name)) then
        ⟨some (PMError.aggregate
            (entries.countP (fun e => dirElig e && !(process e.name)))),
         ⟨entries.countP (fun e => dirElig e && process e.name),
          entries.countP dirSkip,
          entries.countP (fun e => dirElig e && !(process e.name)),
          (entries.filter dirElig).map DirEntry.name⟩⟩
      else
        ⟨none,
         ⟨entries.countP (fun e => dirElig e && process e.name),
          entries.countP dirSkip,
          entries.countP (fun e => dirElig e && !(process e.name)),
          (entries.filter dirElig).map DirEntry.name⟩⟩) := by
  rw [ProcessModules, processLoop_no_cancel]
  simp only [initState, Nat.zero_add, List.nil_append]

/-- C10: an entry is handed to the per-module pipeline exactly when it
is a directory whose name has the `addon` name-prefix and contains no
dot; a directory failing that filter is counted as skipped; and
concretely a directory `addon.x` is skipped and never processed while a
non-directory entry of the same name contributes to no counter at
all. -/
theorem claim10_entry_filter :
    (∀ (entries : List DirEntry) (process : String → Bool),
      (ProcessModules (fun _ => false) (.ok entries) process).state.invoked =
        (entries.filter
          (fun e => e.isDir && goHasPre "addon" e.name &&
            !(goContainsSub e.name "."))).map DirEntry.name ∧
      (ProcessModules (fun _ => false) (.ok entries) process).state.skipped =
        entries.countP
          (fun e => e.isDir &&
            (!(goHasPre "addon" e.name) || goContainsSub e.name "."))) ∧
    (∀ process : String → Bool,
      ProcessModules (fun _ => false) (.ok [⟨"addon.x", true⟩]) process =
        ⟨none, ⟨0, 1, 0, []⟩⟩) ∧
    (∀ process : String → Bool,
      ProcessModules (fun _ => false) (.ok [⟨"addon.x", false⟩]) process =
        ⟨none, ⟨0, 0, 0, []⟩⟩) := by
  have hdot : goContainsSub "addon.x" "." = true := by decide
  have hElig : (fun e : DirEntry =>
      e.isDir && goHasPre "addon" e.name && !(goContainsSub e.name ".")) = dirElig := rfl
  have hSkip : (fun e : DirEntry =>
      e.isDir && (!(goHasPre "addon" e.name) || goContainsSub e.name ".")) = dirSkip := rfl
  refine ⟨?_, ?_, ?_⟩
  · intro entries process
    rw [hElig, hSkip, ProcessModules, processLoop_no_cancel]
    simp only [initState, Nat.zero_add, List.nil_append]
    constructor
    · split <;> rfl
    · split <;> rfl
  · intro process
    simp [ProcessModules, processLoop, hdot, initState]
  · intro process
    simp [ProcessModules, processLoop, initState]

/-- C4: whenever the current-mode synthesizer completes (no panic), no
block of its output document is named `enabled` — the `enabled`
variable is skipped entirely. -/
theorem claim4_enabled_excluded (blocks out : List HBlock)
    (h : syncAddonVariables blocks = some out) :
    ∀ b ∈ out, b.labels.head? ≠ some "enabled" := by
  induction blocks generalizing out with
  | nil =>
    rw [syncAddonVariables] at h
    injection h with h1
    subst h1
    intro b hb
    exact absurd hb (by simp)
  | cons b rest ih =>
    rw [syncAddonVariables] at h
    cases hs : syncVariableBlock b with
    | none => rw [hs] at h; exact absurd h (by simp)
    | some o =>
      rw [hs] at h
      cases o with
      | none => simp only at h; exact ih out h
      | some nb =>
        simp only at h
        cases hr : syncAddonVariables rest with
        | none => rw [hr] at h; exact absurd h (by simp)
        | some out2 =>
          rw [hr] at h
          simp only at h
          injection h with h1
          subst h1
          intro x hx
          rcases List.mem_cons.mp hx with hx | hx
          · subst hx; exact (syncVariableBlock_emit hs).1
          · exact ih out2 hr x hx

/-- C4 witness: a concrete extraction containing an `enabled` variable
synthesizes to a document whose only block is not named `enabled`. -/
theorem claim4_witness :
    (⟨"variable", ["a"], [("type", Expr.raw "bool"), ("default", Expr.nullLit)]⟩ :
        HBlock).labels.head? ≠ some "enabled" :=
  claim4_enabled_excluded
    [⟨"variable", ["enabled"], [("type", Expr.raw "bool")]⟩,
     ⟨"variable", ["a"], [("type", Expr.raw "bool")]⟩]
    [⟨"variable", ["a"], [("type", Expr.raw "bool"), ("default", Expr.nullLit)]⟩]
    (by decide) _ (by decide)

/-- C5: whenever the current-mode synthesizer completes, every emitted
block's `default` attribute is the null literal, regardless of the
source block's original default. -/
theorem claim5_default_nulled (blocks out : List HBlock)
    (h : syncAddonVariables blocks = some out) :
    ∀ b ∈ out, b.getAttribute "default" = some Expr.nullLit := by
  induction blocks generalizing out with
  | nil =>
    rw [syncAddonVariables] at h
    injection h with h1
    subst h1
    intro b hb
    exact absurd hb (by simp)
  | cons b rest ih =>
    rw [syncAddonVariables] at h
    cases hs : syncVariableBlock b with
    | none => rw [hs] at h; exact absurd h (by simp)
    | some o =>
      rw [hs] at h
      cases o with
      | none => simp only at h; exact ih out h
      | some nb =>
        simp only at h
        cases hr : syncAddonVariables rest with
        | none => rw [hr] at h; exact absurd h (by simp)
        | some out2 =>
          rw [hr] at h
          simp only at h
          injection h with h1
          subst h1
          intro x hx
          rcases List.mem_cons.mp hx with hx | hx
          · subst hx; exact (syncVariableBlock_emit hs).2
          · exact ih out2 hr x hx

/-- C5 witness: a source block with a non-null default `3` synthesizes
to a block whose `default` attribute is the null literal. -/
theorem claim5_witness :
    (⟨"variable", ["n"],
        [("type", Expr.raw "number"), ("default", Expr.nullLit)]⟩ :
        HBlock).getAttribute "default" = some Expr.nullLit :=
  claim5_default_nulled
    [⟨"variable", ["n"], [("type", Expr.raw "number"), ("default", Expr.raw "3")]⟩]
    [⟨"variable", ["n"], [("type", Expr.raw "number"), ("default", Expr.nullLit)]⟩]
    (by decide) _ (by decide)

/-- C1 counterexample: the claim prescribes the display string as the
whitespace-stripped (and, for type `string`, quote-stripped) default,
with no further adjustment.  On a string-typed variable with default
`""` and description `"desc"` the code emits ``desc Defaults to
`""`.``, while the claim's algorithm yields ``desc Defaults to ``.``;
the two differ. -/
theorem claim1_cex :
    (syncVariableBlock ⟨"variable", ["x"],
        [("type", Expr.raw "string"), ("default", Expr.raw "\"\""),
         ("description", Expr.raw "\"desc\"")]⟩ =
      some (some ⟨"variable", ["x"],
        [("type", Expr.raw "string"), ("default", Expr.nullLit),
         ("description", Expr.strLit "desc Defaults to `\"\"`.")]⟩)) ∧
    "desc Defaults to `\"\"`." ≠
      "desc" ++ " Defaults to `" ++ claimedDisplay "string" "\"\"" ++ "`." := by
  decide

/-- C1 (amended): for every variable block with `type`, `default` and
`description` attributes, the synthesized description is the cleaned
description followed by `` Defaults to `<display>`.``, where the
display is the default's text stripped of surrounding whitespace, with
surrounding quotes additionally stripped when the declared type is
exactly `string`, and — when that result is empty — replaced by the
explicit two-character token `""`. -/
theorem claim1_description_suffix (b : HBlock) (n : String) (tE dE cE : Expr)
    (h1 : b.labels.head? = some n) (h2 : n ≠ "enabled")
    (h3 : b.getAttribute "type" = some tE)
    (h4 : b.getAttribute "description" = some cE)
    (h5 : b.getAttribute "default" = some dE) :
    syncVariableBlock b = some (some ⟨"variable", b.labels,
      [("type", tE), ("default", Expr.nullLit),
       ("description", Expr.strLit
         (goRemoveQuotes (goTrimQuotes (goTrimSpace cE.text)) ++
          " Defaults to `" ++ displayWithSentinel tE.text dE.text ++ "`."))]⟩) := by
  rw [syncVariableBlock, h1]
  simp only
  rw [if_neg h2, h3]
  simp only
  rw [h4]
  simp only
  rw [h5]
  simp only [displayWithSentinel, claimedDisplay]

/-- C1 witness: both of the claim's example families, derived from the
amended theorem — a string-typed default `"foo"` yields ``desc Defaults
to `foo`.`` and a number-typed default `3` yields ``desc Defaults to
`3`.``. -/
theorem claim1_witness :
    (syncVariableBlock ⟨"variable", ["s"],
        [("type", Expr.raw "string"), ("default", Expr.raw "\"foo\""),
         ("description", Expr.raw "\"desc\"")]⟩ =
      some (some ⟨"variable", ["s"],
        [("type", Expr.raw "string"), ("default", Expr.nullLit),
         ("description", Expr.strLit "desc Defaults to `foo`.")]⟩)) ∧
    (syncVariableBlock ⟨"variable", ["n"],
        [("type", Expr.raw "number"), ("default", Expr.raw "3"),
         ("description", Expr.raw "\"desc\"")]⟩ =
      some (some ⟨"variable", ["n"],
        [("type", Expr.raw "number"), ("default", Expr.nullLit),
         ("description", Expr.strLit "desc Defaults to `3`.")]⟩)) := by
  constructor
  · exact (claim1_description_suffix
      ⟨"variable", ["s"],
        [("type", Expr.raw "string"), ("default", Expr.raw "\"foo\""),
         ("description", Expr.raw "\"desc\"")]⟩
      "s" (Expr.raw "string") (Expr.raw "\"foo\"") (Expr.raw "\"desc\"")
      rfl (by decide) (by decide) (by decide) (by decide)).trans (by decide)
  · exact (claim1_description_suffix
      ⟨"variable", ["n"],
        [("type", Expr.raw "number"), ("default", Expr.raw "3"),
         ("description", Expr.raw "\"desc\"")]⟩
      "n" (Expr.raw "number") (Expr.raw "3") (Expr.raw "\"desc\"")
      rfl (by decide) (by decide) (by decide) (by decide)).trans (by decide)

/-- C2: a string-typed variable block whose default is the empty string
literal `""` and whose description is `"desc"` synthesizes to a block
whose description is ``desc Defaults to `""`.`` — the empty display is
rendered as the explicit two-character empty-string token, not left
blank. -/
theorem claim2_empty_default_sentinel (b : HBlock) (n tT : String)
    (h1 : b.labels.head? = some n) (h2 : n ≠ "enabled")
    (h3 : b.getAttribute "type" = some (Expr.raw tT))
    (hT : goTrimQuotes (goTrimSpace tT) = "string")
    (h4 : b.getAttribute "description" = some (Expr.raw "\"desc\""))
    (h5 : b.getAttribute "default" = some (Expr.raw "\"\"")) :
    syncVariableBlock b = some (some ⟨"variable", b.labels,
      [("type", Expr.raw tT), ("default", Expr.nullLit),
       ("description", Expr.strLit "desc Defaults to `\"\"`.")]⟩) := by
  rw [syncVariableBlock, h1]
  simp only
  rw [if_neg h2, h3]
  simp only
  rw [h4]
  simp only
  rw [h5]
  simp only [Expr.text]
  rw [hT]
  rw [if_pos (rfl : ("string" : String) = "string")]
  exact congrArg
    (fun v => some (some (⟨"variable", b.labels,
      [("type", Expr.raw tT), ("default", Expr.nullLit),
       ("description", Expr.strLit v)]⟩ : HBlock))) (by decide)

/-- C2 witness: the sentinel statement at the concrete declared type
`string`. -/
theorem claim2_witness :
    syncVariableBlock ⟨"variable", ["s"],
        [("type", Expr.raw "string"), ("default", Expr.raw "\"\""),
         ("description", Expr.raw "\"desc\"")]⟩ =
      some (some ⟨"variable", ["s"],
        [("type", Expr.raw "string"), ("default", Expr.nullLit),
         ("description", Expr.strLit "desc Defaults to `\"\"`.")]⟩) :=
  claim2_empty_default_sentinel _ "s" "string" rfl (by decide) (by decide)
    (by decide) (by decide) (by decide)

/-- C9: the current-mode synthesizer loop is only total when every
extracted block not named `enabled` carries a `type` attribute.  First
conjunct: on a block with `default` and `description` but no `type`,
the run is a nil-pointer dereference (modelled `none`), not a returned
error.  Second conjunct: whenever every block has a label and every
block not named `enabled` has a `type` attribute, the loop completes
without panicking. -/
theorem claim9_type_attribute_required :
    (syncAddonVariables [⟨"variable", ["x"],
        [("default", Expr.raw "1"), ("description", Expr.raw "\"d\"")]⟩] = none) ∧
    ∀ blocks : List HBlock,
      (∀ b ∈ blocks, b.labels.head? ≠ none ∧
        (b.labels.head? ≠ some "enabled" → (b.getAttribute "type").isSome)) →
      (syncAddonVariables blocks).isSome := by
  constructor
  · decide
  · intro blocks
    induction blocks with
    | nil => intro _; simp [syncAddonVariables]
    | cons b rest ih =>
      intro h
      obtain ⟨hL, hT⟩ := h b (List.mem_cons_self b rest)
      have hrest := ih (fun b2 hb2 => h b2 (List.mem_cons_of_mem b hb2))
      rw [syncAddonVariables]
      cases hs : syncVariableBlock b with
      | none =>
        exfalso
        cases hh : b.labels.head? with
        | none => exact hL hh
        | some name =>
          rw [syncVariableBlock, hh] at hs
          simp only at hs
          by_cases he : name = "enabled"
          · rw [if_pos he] at hs; exact absurd hs (by simp)
          · rw [if_neg he] at hs
            have hts : (b.getAttribute "type").isSome := by
              refine hT ?_
              rw [hh]
              intro hc
              exact he (by injection hc)
            cases ht : b.getAttribute "type" with
            | none => rw [ht] at hts; exact absurd hts (by simp)
            | some tE =>
              rw [ht] at hs
              simp only at hs
              cases hd : b.getAttribute "description" with
              | none => rw [hd] at hs; exact absurd hs (by simp)
              | some cE => rw [hd] at hs; exact absurd hs (by simp)
      | some o =>
        cases o with
        | none => simp only; exact hrest
        | some nb =>
          simp only
          cases hr : syncAddonVariables rest with
          | none => rw [hr] at hrest; exact absurd hrest (by simp)
          | some out => simp

/-- C9 witness: the totality part at a one-block list carrying a `type`
attribute. -/
theorem claim9_witness :
    (syncAddonVariables [⟨"variable", ["a"], [("type", Expr.raw "number")]⟩]).isSome :=
  claim9_type_attribute_required.2 _ (by decide)

/-- Reading back the key just written into a Go map model. -/
theorem mapPut_get_same (m : List (String × List String)) (k : String)
    (v : List String) : goMapGet (mapPut m k v) k = v := by
  induction m with
  | nil => simp [mapPut, goMapGet]
  | cons p rest ih =>
    by_cases h : p.1 = k
    · simp [mapPut, h, goMapGet]
    · simp [mapPut, h, goMapGet, ih]

/-- Writing one key leaves reads of other keys unchanged. -/
theorem mapPut_get_ne (m : List (String × List String)) (k k2 : String)
    (v : List String) (h : k ≠ k2) :
    goMapGet (mapPut m k v) k2 = goMapGet m k2 := by
  induction m with
  | nil => simp [mapPut, goMapGet, h]
  | cons p rest ih =>
    by_cases hp : p.1 = k
    · simp [mapPut, hp, goMapGet, h]
    · simp [mapPut, hp, goMapGet, ih]

/-- Frame property of the DefaultTable construction: a key whose every
remaining writer would write the value already stored keeps its
value. -/
theorem buildDefaults_frame :
    ∀ (vbs : List CBlock) (acc tbl : List (String × List String)),
      buildDefaults vbs acc = some tbl →
      ∀ n : String,
        (∀ b2 ∈ vbs, b2.labels.head? = some n → entryOf b2 = goMapGet acc n) →
        goMapGet tbl n = goMapGet acc n := by
  intro vbs
  induction vbs with
  | nil =>
    intro acc tbl h n _
    rw [buildDefaults] at h
    injection h with h1
    subst h1
    rfl
  | cons b rest ih =>
    intro acc tbl h n hcons
    rw [buildDefaults] at h
    cases hh : b.labels.head? with
    | none => rw [hh] at h; exact absurd h (by simp)
    | some m =>
      rw [hh] at h
      simp only at h
      by_cases hmn : m = n
      · subst hmn
        have hb : entryOf b = goMapGet acc m := hcons b (List.mem_cons_self b rest) hh
        have hrec := ih (mapPut acc m (entryOf b)) tbl h m ?_
        · rw [hrec, mapPut_get_same, hb]
        · intro b2 hb2 hb2n
          rw [mapPut_get_same]
          rw [hcons b2 (List.mem_cons_of_mem b hb2) hb2n, hb]
      · have hrec := ih (mapPut acc m (entryOf b)) tbl h n ?_
        · rw [hrec, mapPut_get_ne _ _ _ _ hmn]
        · intro b2 hb2 hb2n
          rw [mapPut_get_ne _ _ _ _ hmn]
          exact hcons b2 (List.mem_cons_of_mem b hb2) hb2n

/-- The DefaultTable maps a variable's name to its declared default
tokens, or to the null-literal token when the variable was declared
without a default (assuming the name appears on no other block, as the
source format guarantees). -/
theorem buildDefaults_entry :
    ∀ (vbs : List CBlock) (acc tbl : List (String × List String)) (b : CBlock)
      (n : String),
      buildDefaults vbs acc = some tbl → b ∈ vbs → b.labels.head? = some n →
      (∀ b2 ∈ vbs, b2.labels.head? = some n → entryOf b2 = entryOf b) →
      goMapGet tbl n = entryOf b := by
  intro vbs
  induction vbs with
  | nil => intro acc tbl b n _ hb; exact absurd hb (by simp)
  | cons bh rest ih =>
    intro acc tbl b n h hb hbn huniq
    rw [buildDefaults] at h
    cases hh : bh.labels.head? with
    | none => rw [hh] at h; exact absurd h (by simp)
    | some m =>
      rw [hh] at h
      simp only at h
      rcases List.mem_cons.mp hb with hbh | hbr
      · subst hbh
        have hmn : m = n := by rw [hh] at hbn; injection hbn
        subst hmn
        have hfr := buildDefaults_frame rest (mapPut acc m (entryOf b)) tbl h m ?_
        · rw [hfr, mapPut_get_same]
        · intro b2 hb2 hb2n
          rw [mapPut_get_same]
          exact huniq b2 (List.mem_cons_of_mem b hb2) hb2n
      · exact ih (mapPut acc m (entryOf bh)) tbl b n h hbr hbn
          (fun b2 hb2 hb2n => huniq b2 (List.mem_cons_of_mem bh hb2) hb2n)

/-- C3 counterexample: for an attribute whose name is absent from the
DefaultTable, the claim prescribes a null-literal third argument to the
synthesized `lookup`, but the Go map read of a missing key yields the
nil token slice, so the `lookup` call is emitted with an empty third
argument. -/
theorem claim3_cex :
    (syncAddonDefaults [] [⟨"module", ["m"], [("cfg", ["try", "(", "x", ")"])]⟩] =
      some [⟨"module", ["m"],
        [("cfg", ["var", ".", "cfg", "!=", "null", "?", "var", ".", "cfg", ":",
                  "lookup", "(", "local", ".", "addon", ",", "\"", "cfg", "\"",
                  ",", ")"])]⟩]) ∧
    ["var", ".", "cfg", "!=", "null", "?", "var", ".", "cfg", ":",
     "lookup", "(", "local", ".", "addon", ",", "\"", "cfg", "\"", ",", ")"] ≠
      ternaryTokens "cfg" ["null"] := by
  decide

/-- C3 (amended): in the legacy rewrite engine, every `module` block's
attribute whose raw expression text contains a marker substring (`try`
or `lookup`) has its whole expression replaced by the ternary
`var.<n> != null ? var.<n> : lookup(local.addon, "<n>", <default>)`
built token-by-token, where `<default>` is the DefaultTable entry for
`<n>`, or the empty token sequence when `<n>` is absent from the table;
attributes without a marker, and blocks that are not `module` blocks,
are untouched.  Second conjunct: the DefaultTable entry of a declared
variable is its declared default's tokens, or a null-literal expression
when it was declared without a default. -/
theorem claim3_lookup_rewrite :
    (∀ (defaults : List (String × List String)) (doc : List CBlock) (i : Nat)
      (b : CBlock),
      doc[i]? = some b →
      ∃ b2, (syncAddonDefaultsDoc defaults doc)[i]? = some b2 ∧
        (b.btype ≠ "module" → b2 = b) ∧
        (b.btype = "module" → b2.btype = "module" ∧ b2.labels = b.labels ∧
          ∀ (j : Nat) (n : String) (toks : List String),
            b.attrs[j]? = some (n, toks) →
            b2.attrs[j]? = some (n,
              if hasMarker (String.join toks) then
                ternaryTokens n (goMapGet defaults n)
              else toks))) ∧
    (∀ (vbs : List CBlock) (tbl : List (String × List String)) (b : CBlock)
      (n : String),
      buildDefaults vbs [] = some tbl → b ∈ vbs → b.labels.head? = some n →
      (∀ b2 ∈ vbs, b2.labels.head? = some n → entryOf b2 = entryOf b) →
      goMapGet tbl n = entryOf b) := by
  constructor
  · intro defaults doc i b hib
    refine ⟨if b.btype = "module" then
        { b with attrs := b.attrs.map (fun p => (p.1, rewriteAttr defaults p.1 p.2)) }
      else b, ?_, ?_, ?_⟩
    · rw [syncAddonDefaultsDoc, List.getElem?_map, hib]
      rfl
    · intro hmod
      rw [if_neg hmod]
    · intro hmod
      rw [if_pos hmod]
      refine ⟨hmod, rfl, ?_⟩
      intro j n toks hj
      simp only [List.getElem?_map, hj, Option.map_some']
      rw [rewriteAttr]
  · exact fun vbs tbl b n h hb hbn huniq =>
      buildDefaults_entry vbs [] tbl b n h hb hbn huniq

/-- C3 witness: the amended statement at concrete inputs — a `module`
attribute with a marker and a table entry rewrites to the ternary with
that entry, and a variable declared without a default gets the
null-literal table entry. -/
theorem claim3_witness :
    (∃ b2, (syncAddonDefaultsDoc [("cfg", ["7"])]
        [⟨"module", ["m"], [("cfg", ["lookup", "(", ")"])]⟩])[0]? = some b2 ∧
      ((⟨"module", ["m"], [("cfg", ["lookup", "(", ")"])]⟩ : CBlock).btype ≠ "module" →
        b2 = ⟨"module", ["m"], [("cfg", ["lookup", "(", ")"])]⟩) ∧
      ((⟨"module", ["m"], [("cfg", ["lookup", "(", ")"])]⟩ : CBlock).btype = "module" →
        b2.btype = "module" ∧
        b2.labels = (⟨"module", ["m"], [("cfg", ["lookup", "(", ")"])]⟩ : CBlock).labels ∧
        ∀ (j : Nat) (n : String) (toks : List String),
          (⟨"module", ["m"], [("cfg", ["lookup", "(", ")"])]⟩ : CBlock).attrs[j]? =
            some (n, toks) →
          b2.attrs[j]? = some (n,
            if hasMarker (String.join toks) then
              ternaryTokens n (goMapGet [("cfg", ["7"])] n)
            else toks))) ∧
    goMapGet [("x", ["null"])] "x" =
      entryOf ⟨"variable", ["x"], [("type", ["string"])]⟩ := by
  constructor
  · exact claim3_lookup_rewrite.1 [("cfg", ["7"])]
      [⟨"module", ["m"], [("cfg", ["lookup", "(", ")"])]⟩] 0
      ⟨"module", ["m"], [("cfg", ["lookup", "(", ")"])]⟩ (by decide)
  · exact claim3_lookup_rewrite.2 [⟨"variable", ["x"], [("type", ["string"])]⟩]
      [("x", ["null"])] ⟨"variable", ["x"], [("type", ["string"])]⟩ "x"
      (by decide) (by decide) (by decide) (by decide)

end Luactl
